import Mathlib

/-!
Verification of the text-processing and control-flow contracts of
`contentCreator.py` (robertdevore/content-creator).

Strings are modelled as `List Char`.  The pure formatter
`format_as_h1_and_get_title` is translated line by line from the source;
the effectful parts (`save_to_md_file`, `process_prompts_from_file`, the
`__main__` block) are modelled as functions from an oracle `World`
(filesystem and API behaviour) to a trace of observable events.
-/

/-- Python line-boundary characters, as used by `str.splitlines`:
LF CR VT FF FS GS RS NEL LS PS (with CR LF counting as
a single boundary, handled in `splitlines` itself). -/
def isLineBreak (c : Char) : Bool :=
  let n := c.toNat
  decide (n = 10) || decide (n = 13) || decide (n = 11) || decide (n = 12) ||
  decide (n = 28) || decide (n = 29) || decide (n = 30) || decide (n = 0x85) ||
  decide (n = 0x2028) || decide (n = 0x2029)

/-- Python whitespace (the set accepted by `str.isspace`, which is also the
set stripped by `str.strip()` and matched by the regex class `\s` on `str`):
ASCII 9-13, 28-31, 32, and the Unicode space characters. -/
def isPySpace (c : Char) : Bool :=
  let n := c.toNat
  decide (n = 32) || decide (n = 9) || decide (n = 10) || decide (n = 11) ||
  decide (n = 12) || decide (n = 13) ||
  (decide (28 ≤ n) && decide (n ≤ 31)) ||
  decide (n = 0x85) || decide (n = 0xa0) || decide (n = 0x1680) ||
  (decide (0x2000 ≤ n) && decide (n ≤ 0x200a)) ||
  decide (n = 0x2028) || decide (n = 0x2029) || decide (n = 0x202f) ||
  decide (n = 0x205f) || decide (n = 0x3000)

/-- Helper for `splitlines`: prepend a character to the first line of an
already-split tail (starting a fresh line when the tail is empty). -/
def consFirst (c : Char) : List (List Char) → List (List Char)
  | [] => [[c]]
  | l :: ls => (c :: l) :: ls

/-- `content.splitlines()` from line 60 of `contentCreator.py`: split at
every line boundary, treating `\r\n` as one boundary, and do not produce a
final empty line for text that ends with a line boundary. -/
def splitlines : List Char → List (List Char)
  | [] => []
  | [c] => if isLineBreak c then [[]] else [[c]]
  | c :: d :: rest =>
    if c == '\r' && d == '\n' then [] :: splitlines rest
    else if isLineBreak c then [] :: splitlines (d :: rest)
    else consFirst c (splitlines (d :: rest))

/-- `"\n".join(lines)` from line 75 of `contentCreator.py`. -/
def joinLines : List (List Char) → List Char
  | [] => []
  | [l] => l
  | l :: ls => l ++ '\n' :: joinLines ls

/-- `s.strip()`: drop Python whitespace from both ends. -/
def stripChars (cs : List Char) : List Char :=
  ((cs.dropWhile isPySpace).reverse.dropWhile isPySpace).reverse

/-- `re.sub(r"\*\*|\*", "", s)` from line 64: every asterisk is removed
(each `**` is matched as one unit and each remaining `*` alone, so the
substitution deletes exactly the asterisk characters). -/
def removeAsterisks (cs : List Char) : List Char :=
  cs.filter (fun c => c != '*')

/-- `s.startswith("# ")` from line 67, specialised to the literal `"# "`. -/
def startsWithH1 : List Char → Bool
  | c :: d :: _ => c == '#' && d == ' '
  | _ => false

/-- The character class kept by `re.sub(r"[^a-zA-Z0-9\s-]", "", s)` on
line 72: ASCII letters and digits, whitespace, and the hyphen. -/
def isSlugKeep (c : Char) : Bool :=
  let n := c.toNat
  (decide (97 ≤ n) && decide (n ≤ 122)) ||
  (decide (65 ≤ n) && decide (n ≤ 90)) ||
  (decide (48 ≤ n) && decide (n ≤ 57)) ||
  isPySpace c || decide (n = 45)

/-- `str.lower()` restricted to ASCII.  In the source, `lower()` is applied
only to strings already filtered down to ASCII letters, digits, whitespace
and hyphens, on which Python `lower()` agrees with the ASCII case map. -/
def toLowerAscii (c : Char) : Char :=
  if 65 ≤ c.toNat ∧ c.toNat ≤ 90 then Char.ofNat (c.toNat + 32) else c

/-- Worker for `collapseWs`; the flag records whether the previous character
was whitespace (so that a run of whitespace produces a single hyphen). -/
def collapseWsAux : Bool → List Char → List Char
  | _, [] => []
  | inWs, c :: cs =>
    if isPySpace c then
      (if inWs then [] else ['-']) ++ collapseWsAux true cs
    else c :: collapseWsAux false cs

/-- `re.sub(r"\s+", "-", s)` from line 73: replace every maximal run of
whitespace with a single hyphen. -/
def collapseWs (cs : List Char) : List Char :=
  collapseWsAux false cs

/-- Lines 63-68 of `contentCreator.py`: strip the first line, remove the
emphasis markers, and prepend `"# "` when the result does not already start
with it. -/
def titleOf (line0 : List Char) : List Char :=
  let t := removeAsterisks (stripChars line0)
  if startsWithH1 t then t else '#' :: ' ' :: t

/-- Lines 72-73 of `contentCreator.py`: the filename-friendly slug derived
from the heading line (`title_line[2:]` filtered, stripped, lowercased, and
whitespace-collapsed). -/
def slugOf (title : List Char) : List Char :=
  collapseWs ((stripChars ((title.drop 2).filter isSlugKeep)).map toLowerAscii)

/-- The pair returned by `format_as_h1_and_get_title`. -/
structure FormatResult where
  body : List Char
  slug : List Char
  deriving DecidableEq

/-- `format_as_h1_and_get_title` (lines 53-77 of `contentCreator.py`). -/
def format_as_h1_and_get_title (content : List Char) : FormatResult :=
  match splitlines content with
  | [] => ⟨content, "untitled".toList⟩
  | line0 :: rest =>
    let title := titleOf line0
    ⟨joinLines (title :: rest), slugOf title⟩

/-- The first line of a text (head of its `splitlines`, defaulting to the
empty line). -/
def firstLine (cs : List Char) : List Char :=
  (splitlines cs).headI

/-- Whether a string ends in a Python whitespace character. -/
def endsWithWs (cs : List Char) : Bool :=
  match cs.getLast? with
  | some c => isPySpace c
  | none => false

/-! ### Structural lemmas about the line-splitting primitives -/

lemma beq_cr_eq_false {c : Char} (h : isLineBreak c = false) : (c == '\r') = false := by
  rw [beq_eq_false_iff_ne]
  rintro rfl
  exact absurd h (by decide)

lemma splitlines_cons_of_not_break (c : Char) (cs : List Char) (h : isLineBreak c = false) :
    splitlines (c :: cs) = consFirst c (splitlines cs) := by
  cases cs with
  | nil => simp [splitlines, h, consFirst]
  | cons d ds => simp [splitlines, h, beq_cr_eq_false h]

lemma mem_splitlines_not_break (cs : List Char) :
    ∀ l ∈ splitlines cs, ∀ c ∈ l, isLineBreak c = false := by
  induction cs using splitlines.induct with
  | case1 => simp [splitlines]
  | case2 c hb =>
    intro l hl e he
    simp [splitlines, hb] at hl
    subst hl
    simp at he
  | case3 c hb =>
    intro l hl e he
    rw [Bool.not_eq_true] at hb
    simp [splitlines, hb] at hl
    subst hl
    simp at he
    subst he
    exact hb
  | case4 c d rest h ih =>
    intro l hl e he
    rw [splitlines.eq_3, if_pos h] at hl
    rcases List.mem_cons.mp hl with rfl | hl
    · simp at he
    · exact ih l hl e he
  | case5 c d rest h hb ih =>
    intro l hl e he
    rw [splitlines.eq_3, if_neg h, if_pos hb] at hl
    rcases List.mem_cons.mp hl with rfl | hl
    · simp at he
    · exact ih l hl e he
  | case6 c d rest h hb ih =>
    intro l hl e he
    rw [Bool.not_eq_true] at hb
    rw [splitlines_cons_of_not_break c _ hb] at hl
    cases hsp : splitlines (d :: rest) with
    | nil =>
      rw [hsp] at hl
      simp [consFirst] at hl
      subst hl
      simp at he
      subst he
      exact hb
    | cons m ms =>
      rw [hsp] at hl
      simp only [consFirst, List.mem_cons] at hl
      rcases hl with rfl | hl
      · simp at he
        rcases he with rfl | he
        · exact hb
        · exact ih m (by rw [hsp]; exact List.mem_cons_self m ms) e he
      · exact ih l (by rw [hsp]; exact List.mem_cons_of_mem m hl) e he

lemma splitlines_append (l cs : List Char) (h : ∀ c ∈ l, isLineBreak c = false) :
    splitlines (l ++ '\n' :: cs) = l :: splitlines cs := by
  induction l with
  | nil =>
    cases cs with
    | nil => rfl
    | cons d ds => rfl
  | cons a t ih =>
    have ha : isLineBreak a = false := h a (List.mem_cons_self a t)
    have ht : ∀ c ∈ t, isLineBreak c = false := fun c hc => h c (List.mem_cons_of_mem a hc)
    rw [List.cons_append, splitlines_cons_of_not_break a _ ha, ih ht]
    rfl

lemma splitlines_of_single (l : List Char) (h0 : l ≠ [])
    (h : ∀ c ∈ l, isLineBreak c = false) : splitlines l = [l] := by
  induction l with
  | nil => exact absurd rfl h0
  | cons a t ih =>
    have ha : isLineBreak a = false := h a (List.mem_cons_self a t)
    rw [splitlines_cons_of_not_break a t ha]
    cases t with
    | nil => rfl
    | cons b u =>
      rw [ih (by simp) (fun c hc => h c (List.mem_cons_of_mem a hc))]
      rfl

lemma splitlines_joinLines (ls : List (List Char))
    (h1 : ∀ l ∈ ls, ∀ c ∈ l, isLineBreak c = false)
    (h2 : ls.getLast? ≠ some []) : splitlines (joinLines ls) = ls := by
  induction ls with
  | nil => rfl
  | cons l ms ih =>
    cases ms with
    | nil =>
      have hne : l ≠ [] := by
        intro he
        exact h2 (by rw [he]; rfl)
      simpa [joinLines] using splitlines_of_single l hne (h1 l (List.mem_cons_self l []))
    | cons m ms =>
      rw [show joinLines (l :: m :: ms) = l ++ '\n' :: joinLines (m :: ms) from rfl]
      rw [splitlines_append l _ (h1 l (List.mem_cons_self l _))]
      rw [ih (fun x hx => h1 x (List.mem_cons_of_mem l hx))
        (by rwa [List.getLast?_cons_cons] at h2)]

/-! ### Lemmas about stripping, emphasis removal and the derived heading -/

lemma dropWhile_eq_self_of_head {p : Char → Bool} (l : List Char)
    (h : ∀ c, l.head? = some c → p c = false) : l.dropWhile p = l := by
  cases l with
  | nil => rfl
  | cons a t => rw [List.dropWhile_cons, h a rfl]; simp

lemma stripChars_subset (l : List Char) : stripChars l ⊆ l := by
  intro c hc
  unfold stripChars at hc
  rw [List.mem_reverse] at hc
  have hc2 := (List.dropWhile_sublist _).subset hc
  rw [List.mem_reverse] at hc2
  exact (List.dropWhile_sublist _).subset hc2

lemma stripChars_eq_self (l : List Char)
    (hh : ∀ c, l.head? = some c → isPySpace c = false)
    (ht : endsWithWs l = false) : stripChars l = l := by
  unfold stripChars
  rw [dropWhile_eq_self_of_head l hh]
  rw [dropWhile_eq_self_of_head l.reverse ?hrev, List.reverse_reverse]
  intro c hc
  rw [List.head?_reverse] at hc
  unfold endsWithWs at ht
  rw [hc] at ht
  exact ht

lemma stripChars_eq_nil (l : List Char) (h : ∀ c ∈ l, isPySpace c = true) :
    stripChars l = [] := by
  unfold stripChars
  rw [List.dropWhile_eq_nil_iff.mpr h]
  rfl

lemma removeAsterisks_subset (l : List Char) : removeAsterisks l ⊆ l :=
  (List.filter_sublist l).subset

lemma asterisk_not_mem_removeAsterisks (l : List Char) : '*' ∉ removeAsterisks l := by
  intro h
  have := (List.mem_filter.mp h).2
  simp at this

lemma removeAsterisks_eq_self (l : List Char) (h : '*' ∉ l) : removeAsterisks l = l := by
  apply List.filter_eq_self.mpr
  intro a ha
  simp only [bne_iff_ne, ne_eq]
  rintro rfl
  exact h ha

lemma startsWithH1_shape (l : List Char) (h : startsWithH1 l = true) :
    ∃ t, l = '#' :: ' ' :: t := by
  cases l with
  | nil => simp [startsWithH1] at h
  | cons c t =>
    cases t with
    | nil => simp [startsWithH1] at h
    | cons d u =>
      simp only [startsWithH1, Bool.and_eq_true, beq_iff_eq] at h
      exact ⟨u, by rw [h.1, h.2]⟩

lemma startsWithH1_titleOf (l : List Char) : startsWithH1 (titleOf l) = true := by
  simp only [titleOf]
  split
  · assumption
  · rfl

lemma titleOf_chars (l : List Char) :
    ∀ c ∈ titleOf l, c = '#' ∨ c = ' ' ∨ c ∈ l := by
  intro c hc
  simp only [titleOf] at hc
  have hsub : ∀ e ∈ removeAsterisks (stripChars l), e ∈ l :=
    fun e he => stripChars_subset l (removeAsterisks_subset _ he)
  split at hc
  · exact Or.inr (Or.inr (hsub c hc))
  · rcases List.mem_cons.mp hc with rfl | hc
    · exact Or.inl rfl
    · rcases List.mem_cons.mp hc with rfl | hc
      · exact Or.inr (Or.inl rfl)
      · exact Or.inr (Or.inr (hsub c hc))

lemma titleOf_not_break (l : List Char) (h : ∀ c ∈ l, isLineBreak c = false) :
    ∀ c ∈ titleOf l, isLineBreak c = false := by
  intro c hc
  rcases titleOf_chars l c hc with rfl | rfl | hc
  · decide
  · decide
  · exact h c hc

lemma asterisk_not_mem_titleOf (l : List Char) : '*' ∉ titleOf l := by
  intro hc
  simp only [titleOf] at hc
  split at hc
  · exact asterisk_not_mem_removeAsterisks _ hc
  · rcases List.mem_cons.mp hc with h | hc
    · exact absurd h (by decide)
    · rcases List.mem_cons.mp hc with h | hc
      · exact absurd h (by decide)
      · exact asterisk_not_mem_removeAsterisks _ hc

lemma titleOf_ne_nil (l : List Char) : titleOf l ≠ [] := by
  obtain ⟨t, ht⟩ := startsWithH1_shape _ (startsWithH1_titleOf l)
  rw [ht]
  simp

lemma titleOf_titleOf (l : List Char) (h : endsWithWs (titleOf l) = false) :
    titleOf (titleOf l) = titleOf l := by
  obtain ⟨t, ht⟩ := startsWithH1_shape _ (startsWithH1_titleOf l)
  have hstrip : stripChars (titleOf l) = titleOf l := by
    apply stripChars_eq_self
    · intro c hc
      rw [ht] at hc
      simp at hc
      subst hc
      decide
    · exact h
  have hast : removeAsterisks (titleOf l) = titleOf l :=
    removeAsterisks_eq_self _ (asterisk_not_mem_titleOf l)
  have hdef : titleOf (titleOf l) =
      (if startsWithH1 (removeAsterisks (stripChars (titleOf l))) then
        removeAsterisks (stripChars (titleOf l))
      else '#' :: ' ' :: removeAsterisks (stripChars (titleOf l))) := rfl
  rw [hdef, hstrip, hast, if_pos (startsWithH1_titleOf l)]

lemma format_of_splitlines (T line0 : List Char) (rest : List (List Char))
    (hs : splitlines T = line0 :: rest) :
    format_as_h1_and_get_title T =
      ⟨joinLines (titleOf line0 :: rest), slugOf (titleOf line0)⟩ := by
  unfold format_as_h1_and_get_title
  rw [hs]

/-! ### Claims C1, C2, C7, C8: the formatter on its own output -/

/-- C1 counterexample: formatting is not a fixed point on already-formatted
input for every raw text.  For `T = " "` the first pass yields body `"# "`,
and a second pass turns that into `"# #"`. -/
theorem C1_counterexample :
    (format_as_h1_and_get_title (format_as_h1_and_get_title [' ']).body).body ≠
      (format_as_h1_and_get_title [' ']).body := by
  decide

/-- C1 (amended): applying `format_as_h1_and_get_title` to the body returned
by a first application yields the same body again, provided the derived
heading line does not end in whitespace and the line decomposition of the
input does not end with an empty line. -/
theorem C1_format_idempotent (T line0 : List Char) (rest : List (List Char))
    (hs : splitlines T = line0 :: rest)
    (ht : endsWithWs (titleOf line0) = false)
    (hr : rest.getLast? ≠ some []) :
    (format_as_h1_and_get_title (format_as_h1_and_get_title T).body).body =
      (format_as_h1_and_get_title T).body := by
  rw [format_of_splitlines T line0 rest hs]
  have hbreak : ∀ l ∈ titleOf line0 :: rest, ∀ c ∈ l, isLineBreak c = false := by
    intro l hl
    rcases List.mem_cons.mp hl with rfl | hl
    · exact titleOf_not_break line0
        (mem_splitlines_not_break T line0 (hs ▸ List.mem_cons_self _ _))
    · exact mem_splitlines_not_break T l (hs ▸ List.mem_cons_of_mem _ hl)
  have hlast : (titleOf line0 :: rest).getLast? ≠ some [] := by
    cases rest with
    | nil =>
      intro hx
      rw [List.getLast?_singleton] at hx
      exact titleOf_ne_nil line0 (Option.some_injective _ hx)
    | cons r rs => rwa [List.getLast?_cons_cons]
  have hsp : splitlines (joinLines (titleOf line0 :: rest)) = titleOf line0 :: rest :=
    splitlines_joinLines _ hbreak hlast
  rw [format_of_splitlines _ (titleOf line0) rest hsp, titleOf_titleOf line0 ht]

/-- Witness for C1 (amended) at the concrete input `"Hello\nWorld"`. -/
theorem C1_format_idempotent_witness :
    splitlines "Hello\nWorld".toList = ["Hello".toList, "World".toList] ∧
    (format_as_h1_and_get_title
        (format_as_h1_and_get_title "Hello\nWorld".toList).body).body =
      (format_as_h1_and_get_title "Hello\nWorld".toList).body :=
  ⟨by decide, C1_format_idempotent "Hello\nWorld".toList "Hello".toList ["World".toList]
    (by decide) (by decide) (by decide)⟩

/-- C7: if the raw text has no lines (the only such text is the empty
string), `format_as_h1_and_get_title` returns the content unchanged with
the slug `"untitled"`. -/
theorem C7_no_lines (T : List Char) (hs : splitlines T = []) :
    format_as_h1_and_get_title T = ⟨T, "untitled".toList⟩ := by
  unfold format_as_h1_and_get_title
  rw [hs]

/-- Witness for C7 at the concrete input `""`. -/
theorem C7_no_lines_witness :
    splitlines [] = [] ∧ format_as_h1_and_get_title [] = ⟨[], "untitled".toList⟩ :=
  ⟨rfl, C7_no_lines [] rfl⟩

/-- C8: for input with at least one line, the body is the new heading line
followed by all remaining lines of the input, reassembled with newlines;
only the first line is replaced. -/
theorem C8_body_keeps_rest (T line0 : List Char) (rest : List (List Char))
    (hs : splitlines T = line0 :: rest) :
    (format_as_h1_and_get_title T).body = joinLines (titleOf line0 :: rest) := by
  rw [format_of_splitlines T line0 rest hs]

/-- Witness for C8 at the concrete input `"Title\nbody one\nbody two"`. -/
theorem C8_body_keeps_rest_witness :
    splitlines "Title\nbody one\nbody two".toList =
      ["Title".toList, "body one".toList, "body two".toList] ∧
    (format_as_h1_and_get_title "Title\nbody one\nbody two".toList).body =
      joinLines (titleOf "Title".toList :: ["body one".toList, "body two".toList]) :=
  ⟨by decide, C8_body_keeps_rest _ _ _ (by decide)⟩

lemma titleOf_of_startsWithH1 (l : List Char) (h1 : startsWithH1 l = true)
    (h2 : endsWithWs l = false) : titleOf l = removeAsterisks l := by
  obtain ⟨t, ht⟩ := startsWithH1_shape l h1
  have hstrip : stripChars l = l := by
    apply stripChars_eq_self
    · intro c hc
      rw [ht] at hc
      simp at hc
      subst hc
      decide
    · exact h2
  have hsw : startsWithH1 (removeAsterisks l) = true := by
    rw [ht]
    rfl
  simp only [titleOf]
  rw [hstrip, if_pos hsw]

/-- C2 counterexample: for `T = "# "` (first line already starts with
`"# "`), the first line of the formatted body is `"# #"`, not the first
line with only the asterisks removed, and the heading prefix is
duplicated. -/
theorem C2_counterexample :
    firstLine (format_as_h1_and_get_title ['#', ' ']).body ≠
      removeAsterisks ['#', ' '] := by
  decide

/-- C2 (amended): for every raw text whose first line starts with `"# "`
and does not end in whitespace, the first line of the formatted body is
that first line with only the asterisks removed, and it is not re-prefixed
with a second `"# "` (the body is exactly that line joined with the
untouched remaining lines). -/
theorem C2_h1_line_kept (T line0 : List Char) (rest : List (List Char))
    (hs : splitlines T = line0 :: rest)
    (h1 : startsWithH1 line0 = true)
    (h2 : endsWithWs line0 = false) :
    firstLine (format_as_h1_and_get_title T).body = removeAsterisks line0 ∧
    (format_as_h1_and_get_title T).body = joinLines (removeAsterisks line0 :: rest) := by
  have htitle := titleOf_of_startsWithH1 line0 h1 h2
  have hbody : (format_as_h1_and_get_title T).body =
      joinLines (removeAsterisks line0 :: rest) := by
    rw [format_of_splitlines T line0 rest hs, htitle]
  refine ⟨?_, hbody⟩
  rw [hbody]
  have hbreak0 : ∀ c ∈ removeAsterisks line0, isLineBreak c = false :=
    fun c hc => mem_splitlines_not_break T line0 (hs ▸ List.mem_cons_self _ _) c
      (removeAsterisks_subset _ hc)
  have hne : removeAsterisks line0 ≠ [] := by
    rw [← htitle]
    exact titleOf_ne_nil line0
  cases rest with
  | nil =>
    unfold firstLine
    rw [show joinLines [removeAsterisks line0] = removeAsterisks line0 from rfl]
    rw [splitlines_of_single _ hne hbreak0]
    rfl
  | cons r rs =>
    unfold firstLine
    rw [show joinLines (removeAsterisks line0 :: r :: rs) =
      removeAsterisks line0 ++ '\n' :: joinLines (r :: rs) from rfl]
    rw [splitlines_append _ _ hbreak0]
    rfl

/-- Witness for C2 (amended) at the concrete input `"# *Hi*\nBody"`. -/
theorem C2_h1_line_kept_witness :
    splitlines "# *Hi*\nBody".toList = ["# *Hi*".toList, "Body".toList] ∧
    firstLine (format_as_h1_and_get_title "# *Hi*\nBody".toList).body =
      removeAsterisks "# *Hi*".toList :=
  ⟨by decide, (C2_h1_line_kept "# *Hi*\nBody".toList "# *Hi*".toList ["Body".toList]
    (by decide) (by decide) (by decide)).1⟩

/-! ### Claims C3 and C9: the character set of the slug -/

lemma toNat_ofNat_of_lt (n : Nat) (h : n < 55296) : (Char.ofNat n).toNat = n := by
  have hv : n.isValidChar := Or.inl h
  unfold Char.ofNat
  rw [dif_pos hv]
  rfl

/-- The character class the specification asserts for slugs: lowercase
ASCII letters, digits, and the hyphen. -/
def isSlugChar (c : Char) : Bool :=
  let n := c.toNat
  (decide (97 ≤ n) && decide (n ≤ 122)) ||
  (decide (48 ≤ n) && decide (n ≤ 57)) || decide (n = 45)

lemma mem_collapseWsAux (b : Bool) (l : List Char) :
    ∀ c ∈ collapseWsAux b l, c = '-' ∨ (c ∈ l ∧ isPySpace c = false) := by
  induction l generalizing b with
  | nil =>
    intro c hc
    simp [collapseWsAux] at hc
  | cons a t ih =>
    intro c hc
    simp only [collapseWsAux] at hc
    by_cases ha : isPySpace a = true
    · rw [if_pos ha] at hc
      rcases List.mem_append.mp hc with hc | hc
      · left
        cases b with
        | true => simp at hc
        | false => simpa using hc
      · rcases ih true c hc with h | ⟨hm, hw⟩
        · exact Or.inl h
        · exact Or.inr ⟨List.mem_cons_of_mem a hm, hw⟩
    · rw [if_neg ha] at hc
      rcases List.mem_cons.mp hc with rfl | hc
      · exact Or.inr ⟨List.mem_cons_self _ _, by simpa using ha⟩
      · rcases ih false c hc with h | ⟨hm, hw⟩
        · exact Or.inl h
        · exact Or.inr ⟨List.mem_cons_of_mem a hm, hw⟩

lemma isSlugChar_toLowerAscii (c : Char) (h1 : isSlugKeep c = true)
    (h2 : isPySpace (toLowerAscii c) = false) : isSlugChar (toLowerAscii c) = true := by
  by_cases hAZ : 65 ≤ c.toNat ∧ c.toNat ≤ 90
  · have hlow : toLowerAscii c = Char.ofNat (c.toNat + 32) := by
      unfold toLowerAscii
      rw [if_pos hAZ]
    rw [hlow]
    have ht : (Char.ofNat (c.toNat + 32)).toNat = c.toNat + 32 :=
      toNat_ofNat_of_lt _ (by omega)
    simp only [isSlugChar, ht, Bool.or_eq_true, Bool.and_eq_true, decide_eq_true_eq]
    omega
  · have hlow : toLowerAscii c = c := by
      unfold toLowerAscii
      rw [if_neg hAZ]
    rw [hlow] at h2 ⊢
    have h2' : ¬ isPySpace c = true := by simp [h2]
    simp only [isSlugKeep, isPySpace, Bool.or_eq_true, Bool.and_eq_true,
      decide_eq_true_eq] at h1 h2'
    simp only [isSlugChar, Bool.or_eq_true, Bool.and_eq_true, decide_eq_true_eq]
    omega

lemma slugOf_charset (title : List Char) : (slugOf title).all isSlugChar = true := by
  rw [List.all_eq_true]
  intro c hc
  unfold slugOf collapseWs at hc
  rcases mem_collapseWsAux false _ c hc with rfl | ⟨h1, h2⟩
  · decide
  · obtain ⟨d, hd, rfl⟩ := List.mem_map.mp h1
    have hkeep : isSlugKeep d = true :=
      (List.mem_filter.mp (stripChars_subset _ hd)).2
    exact isSlugChar_toLowerAscii d hkeep h2

/-- C3: for every raw text, the slug returned by
`format_as_h1_and_get_title` contains only lowercase ASCII letters, digits,
and hyphens. -/
theorem C3_slug_charset (T : List Char) :
    ((format_as_h1_and_get_title T).slug).all isSlugChar = true := by
  cases hs : splitlines T with
  | nil =>
    unfold format_as_h1_and_get_title
    rw [hs]
    show ("untitled".toList).all isSlugChar = true
    decide
  | cons line0 rest =>
    rw [format_of_splitlines T line0 rest hs]
    exact slugOf_charset (titleOf line0)

/-- ASCII letters, digits and the hyphen: the characters a slug can be
built from.  Claim C9 is about first lines with none of these. -/
def isAlnumHyphen (c : Char) : Bool :=
  let n := c.toNat
  (decide (97 ≤ n) && decide (n ≤ 122)) ||
  (decide (65 ≤ n) && decide (n ≤ 90)) ||
  (decide (48 ≤ n) && decide (n ≤ 57)) || decide (n = 45)

lemma isPySpace_of_keep_not_alnum (c : Char) (h1 : isSlugKeep c = true)
    (h2 : isAlnumHyphen c = false) : isPySpace c = true := by
  have h2' : ¬ isAlnumHyphen c = true := by simp [h2]
  simp only [isAlnumHyphen, Bool.or_eq_true, Bool.and_eq_true, decide_eq_true_eq] at h2'
  simp only [isSlugKeep, Bool.or_eq_true, Bool.and_eq_true, decide_eq_true_eq] at h1
  rcases h1 with ((((h | h) | h) | h) | h)
  · exact (h2' (by omega)).elim
  · exact (h2' (by omega)).elim
  · exact (h2' (by omega)).elim
  · exact h
  · exact (h2' (by omega)).elim

lemma slugOf_eq_nil_of_ws (title : List Char)
    (hws : ∀ c ∈ (title.drop 2).filter isSlugKeep, isPySpace c = true) :
    slugOf title = [] := by
  unfold slugOf
  rw [stripChars_eq_nil _ hws]
  rfl

/-- C9: if the input has at least one line but its first line contains no
ASCII letters, digits, or hyphens (e.g. it is whitespace-only or all
punctuation), the computed slug is the empty string — so the output
filename the flows derive from it is just `".md"` — and it is not the
`"untitled"` default, which applies only to input with no lines at all. -/
theorem C9_empty_slug (T line0 : List Char) (rest : List (List Char))
    (hs : splitlines T = line0 :: rest)
    (h : ∀ c ∈ line0, isAlnumHyphen c = false) :
    (format_as_h1_and_get_title T).slug = [] ∧
    (format_as_h1_and_get_title T).slug ++ ".md".toList = ".md".toList ∧
    (format_as_h1_and_get_title T).slug ≠ "untitled".toList := by
  rw [format_of_splitlines T line0 rest hs]
  have hdrop : ∀ c ∈ (titleOf line0).drop 2, c ∈ line0 ∨ c = '#' ∨ c = ' ' := by
    intro c hc
    have := titleOf_chars line0 c (List.drop_subset _ _ hc)
    tauto
  have hws : ∀ c ∈ ((titleOf line0).drop 2).filter isSlugKeep, isPySpace c = true := by
    intro c hc
    obtain ⟨hcmem, hkeep⟩ := List.mem_filter.mp hc
    rcases hdrop c hcmem with hcl | rfl | rfl
    · exact isPySpace_of_keep_not_alnum c hkeep (h c hcl)
    · exact absurd hkeep (by decide)
    · decide
  have hnil : slugOf (titleOf line0) = [] := slugOf_eq_nil_of_ws _ hws
  refine ⟨hnil, ?_, ?_⟩
  · show slugOf (titleOf line0) ++ ".md".toList = ".md".toList
    rw [hnil]
    rfl
  · show slugOf (titleOf line0) ≠ "untitled".toList
    rw [hnil]
    decide

/-- Witness for C9 at the concrete input `"!!!"`. -/
theorem C9_empty_slug_witness :
    splitlines "!!!".toList = ["!!!".toList] ∧
    (format_as_h1_and_get_title "!!!".toList).slug = [] :=
  ⟨by decide, (C9_empty_slug "!!!".toList "!!!".toList [] (by decide) (by decide)).1⟩

/-! ### Effectful part: oracle world, events, and the three I/O functions

The API, the filesystem and the JSON loader are modelled as oracles in a
`World`; each Python function is translated to a function producing the
list of its observable events (log lines, API invocations, file writes) in
program order.  Loading the batch file (`open` + `json.load`) is one
oracle returning an optional JSON value; `None` stands for any raised
`IOError`/`JSONDecodeError`.  The API oracle returns the response text, or
`none` when the call raises (the `except` in `fetch_openai_response`
catches everything and returns `None`). -/

/-- A Python/JSON value, as far as `process_prompts_from_file` can see one:
the result of `json.load` and the items handed to `fetch_openai_response`. -/
inductive PyVal where
  | str (s : List Char)
  | num (n : Int)
  | bool (b : Bool)
  | null
  | arr (elems : List PyVal)
  | obj (entries : List (List Char × PyVal))

/-- Python iteration, as used by `for i, prompt in enumerate(prompts, 1)`:
a list yields its elements, a string its one-character substrings, a dict
its keys; numbers, booleans and `None` are not iterable (`enumerate`
raises `TypeError`, modelled as `none`). -/
def pyIterate : PyVal → Option (List PyVal)
  | PyVal.arr xs => some xs
  | PyVal.str s => some (s.map (fun c => PyVal.str [c]))
  | PyVal.obj kvs => some (kvs.map (fun kv => PyVal.str kv.fst))
  | _ => none

/-- Whether a JSON value is an array whose elements are all strings. -/
def isStrVal : PyVal → Bool
  | PyVal.str _ => true
  | _ => false

def isArrayOfStrings : PyVal → Bool
  | PyVal.arr xs => xs.all isStrVal
  | _ => false

/-- Observable events of the script, in program order. -/
inductive Event where
  | logInfoProcessing (i total : Nat)
  | logSending (prompt : PyVal)
  | apiCall (prompt : PyVal)
  | logReceived (text : List Char)
  | logApiError
  | logFailedPrompt (i : Nat)
  | logBatchError
  | fileWrite (path content : List Char)
  | logSaved (path : List Char)
  | logSaveFailed (path : List Char)
  | logFetchFailed
  | logEmptyPrompt
  | uncaughtException

/-- The oracles: behaviour of the filesystem, the JSON loader and the API. -/
structure World where
  readJson : List Char → Option PyVal
  api : PyVal → Option (List Char)
  makedirs_fails : Bool
  write_fails : List Char → Bool

/-- `fetch_openai_response` (lines 79-130): logs the prompt, performs the
call, and either logs the reception and returns the text, or logs the error
and returns `None`.  The elapsed time and token counts are metadata only
and are not modelled; the terminal loading indicator is cosmetic and is
not modelled. -/
def fetch_openai_response (w : World) (prompt : PyVal) :
    Option (List Char) × List Event :=
  match w.api prompt with
  | some text =>
    (some text, [Event.logSending prompt, Event.apiCall prompt, Event.logReceived text])
  | none =>
    (none, [Event.logSending prompt, Event.apiCall prompt, Event.logApiError])

/-- The trace part of `fetch_openai_response`. -/
def fetchEvents (w : World) (prompt : PyVal) : List Event :=
  (fetch_openai_response w prompt).2

/-- `os.path.join("content", filename)` with the fixed output directory. -/
def contentPath (filename : List Char) : List Char :=
  "content/".toList ++ filename

/-- Result of `save_to_md_file`: either a normal return with its event
trace, or an exception escaping the function with the events emitted
before it was raised. -/
inductive SaveOutcome where
  | returned (events : List Event)
  | raised (events : List Event)

def SaveOutcome.isReturned : SaveOutcome → Bool
  | SaveOutcome.returned _ => true
  | SaveOutcome.raised _ => false

/-- `save_to_md_file` (lines 132-149).  NOTE the translation point the
claims turn on: `os.makedirs("content", exist_ok=True)` is executed
*before* the `try` block, so a failure there escapes the function, while
a failure of `open`/`write` is caught and logged. -/
def save_to_md_file (w : World) (filename content : List Char) : SaveOutcome :=
  if w.makedirs_fails then SaveOutcome.raised []
  else if w.write_fails (contentPath filename) then
    SaveOutcome.returned [Event.logSaveFailed (contentPath filename)]
  else
    SaveOutcome.returned
      [Event.fileWrite (contentPath filename) content, Event.logSaved (contentPath filename)]

/-- Lines 163-168 of `contentCreator.py`: what the loop body does with the
fetched result.  `if response_text:` is a truthiness test, so `None` and
the empty string both take the failure branch.  `rest` is the processing
of the remaining prompts; a `raised` save drops it and is caught by the
enclosing `except`, which logs the batch error. -/
def handleResult (w : World) (i : Nat) (r : Option (List Char)) (rest : List Event) :
    List Event :=
  match r with
  | some text =>
    if text.isEmpty then Event.logFailedPrompt i :: rest
    else
      match save_to_md_file w ((format_as_h1_and_get_title text).slug ++ ".md".toList)
          (format_as_h1_and_get_title text).body with
      | SaveOutcome.returned evs => evs ++ rest
      | SaveOutcome.raised evs => evs ++ [Event.logBatchError]
  | none => Event.logFailedPrompt i :: rest

/-- The loop of `process_prompts_from_file` (lines 160-168), over the
remaining items, with `i` the 1-based index of the first of them and
`total = len(prompts)`. -/
def processPrompts (w : World) : List PyVal → Nat → Nat → List Event
  | [], _, _ => []
  | p :: ps, i, total =>
    Event.logInfoProcessing i total ::
      (fetch_openai_response w p).2 ++
        handleResult w i (fetch_openai_response w p).1 (processPrompts w ps (i + 1) total)

/-- `process_prompts_from_file` (lines 151-170). -/
def process_prompts_from_file (w : World) (file_path : List Char) : List Event :=
  match w.readJson file_path with
  | none => [Event.logBatchError]
  | some v =>
    match pyIterate v with
    | none => [Event.logBatchError]
    | some items => processPrompts w items 1 items.length

/-- The single-prompt flow of the `__main__` block (lines 181-192): reject
an empty (after stripping) prompt, otherwise fetch once and, if the result
is truthy, format and save; a save exception here is uncaught. -/
def main_single (w : World) (custom_prompt : List Char) : List Event :=
  if (stripChars custom_prompt).isEmpty then [Event.logEmptyPrompt]
  else
    (fetch_openai_response w (PyVal.str custom_prompt)).2 ++
      match (fetch_openai_response w (PyVal.str custom_prompt)).1 with
      | some text =>
        if text.isEmpty then [Event.logFetchFailed]
        else
          match save_to_md_file w ((format_as_h1_and_get_title text).slug ++ ".md".toList)
              (format_as_h1_and_get_title text).body with
          | SaveOutcome.returned evs => evs
          | SaveOutcome.raised evs => evs ++ [Event.uncaughtException]
      | none => [Event.logFetchFailed]

/-! ### Claim C4: the persistence boundary -/

/-- A world in which creating the output directory fails. -/
def w4 : World :=
  ⟨fun _ => none, fun _ => none, true, fun _ => false⟩

/-- C4 counterexample: when `os.makedirs` fails, the exception escapes
`save_to_md_file`: the function does not return normally on every
persistence failure. -/
theorem C4_counterexample :
    (save_to_md_file w4 "a.md".toList "x".toList).isReturned = false := rfl

/-- C4 (amended): with the directory-creation step succeeding, a failure
of opening or writing the file is caught, logged, and the function returns
normally; but a failure of `os.makedirs` itself escapes the function
(that call sits outside the `try` block). -/
theorem C4_save_no_raise (w : World) (filename content : List Char)
    (hm : w.makedirs_fails = false) :
    (save_to_md_file w filename content).isReturned = true ∧
    (w.write_fails (contentPath filename) = true →
      save_to_md_file w filename content =
        SaveOutcome.returned [Event.logSaveFailed (contentPath filename)]) := by
  unfold save_to_md_file
  rw [hm]
  constructor
  · by_cases hw : w.write_fails (contentPath filename) = true
    · rw [if_neg (by simp), if_pos hw]
      rfl
    · rw [if_neg (by simp), if_neg hw]
      rfl
  · intro hw
    rw [if_neg (by simp), if_pos hw]

/-- A world in which writing files fails (but directory creation works). -/
def w4w : World :=
  ⟨fun _ => none, fun _ => none, false, fun _ => true⟩

/-- Witness for C4 (amended): a failed write is logged and returns. -/
theorem C4_save_no_raise_witness :
    (save_to_md_file w4w "a.md".toList "x".toList).isReturned = true ∧
    (w4w.write_fails (contentPath "a.md".toList) = true →
      save_to_md_file w4w "a.md".toList "x".toList =
        SaveOutcome.returned [Event.logSaveFailed (contentPath "a.md".toList)]) :=
  C4_save_no_raise w4w "a.md".toList "x".toList rfl

/-! ### Claim C5: rejection of bad batch files -/

/-- A world whose batch file parses to the JSON string `"ab"`: valid JSON,
but not an array of strings. -/
def w5 : World :=
  ⟨fun _ => some (PyVal.str ['a', 'b']), fun _ => some ['T'], false, fun _ => false⟩

/-- C5 counterexample: a batch file holding the JSON string `"ab"` is not
a JSON array of strings, yet the batch is not aborted: the loop iterates
over the characters of the string and prompts are sent to the API. -/
theorem C5_counterexample :
    isArrayOfStrings (PyVal.str ['a', 'b']) = false ∧
    Event.apiCall (PyVal.str ['a']) ∈ process_prompts_from_file w5 "f".toList := by
  refine ⟨rfl, ?_⟩
  exact List.mem_cons_of_mem _ (List.mem_cons_of_mem _ (List.mem_cons_self _ _))

/-- C5 (amended): if the batch file is missing, unreadable, invalid JSON,
or parses to a non-iterable JSON value (number, boolean, null), the whole
batch aborts with a single logged error: no prompt is fetched and no file
is written.  An iterable JSON value that is not an array of strings (an
object, a string, an array of arbitrary values) is NOT rejected: its
elements are processed as prompts. -/
theorem C5_bad_batch_aborts (w : World) (file_path : List Char)
    (h : ∀ v, w.readJson file_path = some v → pyIterate v = none) :
    process_prompts_from_file w file_path = [Event.logBatchError] := by
  cases hr : w.readJson file_path with
  | none =>
    unfold process_prompts_from_file
    rw [hr]
  | some v =>
    have h2 := h v hr
    unfold process_prompts_from_file
    rw [hr]
    show (match pyIterate v with
      | none => [Event.logBatchError]
      | some items => processPrompts w items 1 items.length) = [Event.logBatchError]
    rw [h2]

/-- A world whose batch file cannot be loaded at all. -/
def w5w : World :=
  ⟨fun _ => none, fun _ => none, false, fun _ => false⟩

/-- Witness for C5 (amended) at a world whose batch file is unreadable. -/
theorem C5_bad_batch_aborts_witness :
    process_prompts_from_file w5w "f".toList = [Event.logBatchError] :=
  C5_bad_batch_aborts w5w "f".toList (fun _ hv => Option.noConfusion hv)

/-! ### Claim C6: failure isolation in a batch -/

lemma save_returned_of_makedirs_ok (w : World) (filename content : List Char)
    (hm : w.makedirs_fails = false) :
    ∃ evs, save_to_md_file w filename content = SaveOutcome.returned evs := by
  unfold save_to_md_file
  rw [hm]
  by_cases hw : w.write_fails (contentPath filename) = true
  · rw [if_neg (by simp), if_pos hw]
    exact ⟨_, rfl⟩
  · rw [if_neg (by simp), if_neg hw]
    exact ⟨_, rfl⟩

/-- One step of the loop: the events of the current prompt come first, then
the processing of the remaining prompts (never dropped when directory
creation works); a fetch failure logs that index; a present, non-empty
result with working writes produces the file write. -/
lemma processPrompts_step (w : World) (p : PyVal) (ps : List PyVal) (k total : Nat)
    (hmk : w.makedirs_fails = false) :
    ∃ pre, processPrompts w (p :: ps) k total = pre ++ processPrompts w ps (k + 1) total ∧
      (w.api p = none → Event.logFailedPrompt k ∈ pre) ∧
      (∀ t, w.api p = some t → t ≠ [] → (∀ pth, w.write_fails pth = false) →
        Event.fileWrite (contentPath ((format_as_h1_and_get_title t).slug ++ ".md".toList))
            (format_as_h1_and_get_title t).body ∈ pre) := by
  cases hapi : w.api p with
  | none =>
    refine ⟨Event.logInfoProcessing k total :: fetchEvents w p ++ [Event.logFailedPrompt k],
      ?_, ?_, ?_⟩
    · simp only [processPrompts, fetch_openai_response, hapi, handleResult, fetchEvents]
      simp
    · intro _
      simp
    · intro t hsome
      exact absurd hsome (by simp)
  | some t =>
    cases t with
    | nil =>
      refine ⟨Event.logInfoProcessing k total :: fetchEvents w p ++ [Event.logFailedPrompt k],
        ?_, ?_, ?_⟩
      · simp only [processPrompts, fetch_openai_response, hapi, handleResult, fetchEvents]
        simp
      · intro hnone
        exact absurd hnone (by simp)
      · intro u hsome hne _
        exact absurd (Option.some_injective _ hsome).symm hne
    | cons a l =>
      by_cases hw : w.write_fails
          (contentPath ((format_as_h1_and_get_title (a :: l)).slug ++ ".md".toList)) = true
      · refine ⟨Event.logInfoProcessing k total :: fetchEvents w p ++
          [Event.logSaveFailed
            (contentPath ((format_as_h1_and_get_title (a :: l)).slug ++ ".md".toList))],
          ?_, ?_, ?_⟩
        · simp only [processPrompts, fetch_openai_response, hapi, handleResult, fetchEvents]
          rw [show (a :: l).isEmpty = false from rfl]
          simp only [Bool.false_eq_true, if_false]
          unfold save_to_md_file
          rw [hmk]
          rw [if_neg (by simp), if_pos hw]
          simp
        · intro hnone
          exact absurd hnone (by simp)
        · intro u hsome hne hwr
          rw [hwr] at hw
          exact Bool.noConfusion hw
      · refine ⟨Event.logInfoProcessing k total :: fetchEvents w p ++
          [Event.fileWrite (contentPath ((format_as_h1_and_get_title (a :: l)).slug ++ ".md".toList))
            (format_as_h1_and_get_title (a :: l)).body,
           Event.logSaved (contentPath ((format_as_h1_and_get_title (a :: l)).slug ++ ".md".toList))],
          ?_, ?_, ?_⟩
        · simp only [processPrompts, fetch_openai_response, hapi, handleResult, fetchEvents]
          rw [show (a :: l).isEmpty = false from rfl]
          simp only [Bool.false_eq_true, if_false]
          unfold save_to_md_file
          rw [hmk]
          rw [if_neg (by simp), if_neg hw]
          simp
        · intro hnone
          exact absurd hnone (by simp)
        · intro u hsome hne hwr
          have hu : (a :: l) = u := Option.some_injective _ hsome
          subst hu
          simp

lemma processPrompts_mem_failed (w : World) (items : List PyVal) (k total : Nat)
    (hmk : w.makedirs_fails = false) (i : Nat) (hi : i < items.length)
    (hapi : w.api (items.get ⟨i, hi⟩) = none) :
    Event.logFailedPrompt (k + i) ∈ processPrompts w items k total := by
  induction items generalizing k i with
  | nil => exact absurd hi (by simp)
  | cons p ps ih =>
    obtain ⟨pre, heq, hfail, _⟩ := processPrompts_step w p ps k total hmk
    rw [heq]
    cases i with
    | zero =>
      rw [Nat.add_zero]
      exact List.mem_append_left _ (hfail hapi)
    | succ j =>
      have hj : j < ps.length := Nat.lt_of_succ_lt_succ (by simpa using hi)
      have hrec := ih (k + 1) j hj hapi
      rw [show k + (j + 1) = (k + 1) + j by omega]
      exact List.mem_append_right _ hrec

lemma processPrompts_mem_write (w : World) (items : List PyVal) (k total : Nat)
    (hmk : w.makedirs_fails = false) (hwr : ∀ pth, w.write_fails pth = false)
    (i : Nat) (hi : i < items.length) (t : List Char)
    (hapi : w.api (items.get ⟨i, hi⟩) = some t) (ht : t ≠ []) :
    Event.fileWrite (contentPath ((format_as_h1_and_get_title t).slug ++ ".md".toList))
        (format_as_h1_and_get_title t).body ∈ processPrompts w items k total := by
  induction items generalizing k i with
  | nil => exact absurd hi (by simp)
  | cons p ps ih =>
    obtain ⟨pre, heq, _, hwrite⟩ := processPrompts_step w p ps k total hmk
    rw [heq]
    cases i with
    | zero => exact List.mem_append_left _ (hwrite t hapi ht hwr)
    | succ j =>
      have hj : j < ps.length := Nat.lt_of_succ_lt_succ (by simpa using hi)
      exact List.mem_append_right _ (ih (k + 1) j hj hapi)

/-- C6: in a batch read from a JSON array of strings, with the filesystem
functioning, a prompt whose fetch yields an absent result gets a failure
logged at its (1-based) index while the loop goes on: every other prompt
whose fetch yields a present, non-empty result still has its formatted
file written.  One failing prompt never aborts the batch. -/
theorem C6_failure_isolation (w : World) (file_path : List Char) (ps : List (List Char))
    (hread : w.readJson file_path = some (PyVal.arr (ps.map PyVal.str)))
    (hmk : w.makedirs_fails = false)
    (hwr : ∀ pth, w.write_fails pth = false) :
    (∀ i (hi : i < ps.length), w.api (PyVal.str (ps.get ⟨i, hi⟩)) = none →
      Event.logFailedPrompt (i + 1) ∈ process_prompts_from_file w file_path) ∧
    (∀ i (hi : i < ps.length) (t : List Char),
      w.api (PyVal.str (ps.get ⟨i, hi⟩)) = some t → t ≠ [] →
      Event.fileWrite (contentPath ((format_as_h1_and_get_title t).slug ++ ".md".toList))
          (format_as_h1_and_get_title t).body ∈ process_prompts_from_file w file_path) := by
  have hflow : process_prompts_from_file w file_path =
      processPrompts w (ps.map PyVal.str) 1 (ps.map PyVal.str).length := by
    unfold process_prompts_from_file
    rw [hread]
    rfl
  rw [hflow]
  constructor
  · intro i hi hnone
    have hi2 : i < (ps.map PyVal.str).length := by simpa using hi
    have hget : (ps.map PyVal.str).get ⟨i, hi2⟩ = PyVal.str (ps.get ⟨i, hi⟩) := by
      simp [List.getElem_map]
    rw [show i + 1 = 1 + i by omega]
    exact processPrompts_mem_failed w _ 1 _ hmk i hi2 (by rw [hget]; exact hnone)
  · intro i hi t hsome hne
    have hi2 : i < (ps.map PyVal.str).length := by simpa using hi
    have hget : (ps.map PyVal.str).get ⟨i, hi2⟩ = PyVal.str (ps.get ⟨i, hi⟩) := by
      simp [List.getElem_map]
    exact processPrompts_mem_write w _ 1 _ hmk hwr i hi2 t (by rw [hget]; exact hsome) hne

/-- A three-prompt API oracle: the second prompt fails, the others
succeed. -/
def api6 : PyVal → Option (List Char)
  | PyVal.str ['a'] => some ['A']
  | PyVal.str ['c'] => some ['C']
  | _ => none

def w6 : World :=
  ⟨fun _ => some (PyVal.arr [PyVal.str ['a'], PyVal.str ['b'], PyVal.str ['c']]),
   api6, false, fun _ => false⟩

/-- Witness for C6: the failure-isolation scenario of the specification —
a batch of three prompts where the second fetch returns absent still logs
a failure for index 2 and writes the files of prompts 1 and 3. -/
theorem C6_failure_isolation_witness :
    Event.logFailedPrompt 2 ∈ process_prompts_from_file w6 "f".toList ∧
    Event.fileWrite (contentPath ((format_as_h1_and_get_title ['A']).slug ++ ".md".toList))
        (format_as_h1_and_get_title ['A']).body ∈ process_prompts_from_file w6 "f".toList ∧
    Event.fileWrite (contentPath ((format_as_h1_and_get_title ['C']).slug ++ ".md".toList))
        (format_as_h1_and_get_title ['C']).body ∈ process_prompts_from_file w6 "f".toList :=
  ⟨(C6_failure_isolation w6 "f".toList [['a'], ['b'], ['c']] rfl rfl (fun _ => rfl)).1
      1 (by decide) rfl,
   (C6_failure_isolation w6 "f".toList [['a'], ['b'], ['c']] rfl rfl (fun _ => rfl)).2
      0 (by decide) ['A'] rfl (by simp),
   (C6_failure_isolation w6 "f".toList [['a'], ['b'], ['c']] rfl rfl (fun _ => rfl)).2
      2 (by decide) ['C'] rfl (by simp)⟩

/-! ### Claim C10: the empty response is treated as a failure -/

/-- C10: a fetch that succeeds but returns the empty string takes the same
failure branch as an absent result in both flows (the result is tested for
truthiness, not presence): the batch loop logs the failure for that index
and continues with the remaining prompts, the single-prompt flow logs the
fetch failure; and no file-write event occurs in that step of the trace. -/
theorem C10_empty_response (w : World) (p : PyVal) (ps : List PyVal) (k total : Nat)
    (prompt : List Char)
    (hb : w.api p = some [])
    (hs : w.api (PyVal.str prompt) = some [])
    (hne : (stripChars prompt).isEmpty = false) :
    processPrompts w (p :: ps) k total =
      Event.logInfoProcessing k total :: fetchEvents w p ++
        Event.logFailedPrompt k :: processPrompts w ps (k + 1) total ∧
    main_single w prompt = fetchEvents w (PyVal.str prompt) ++ [Event.logFetchFailed] ∧
    (∀ pth c, Event.fileWrite pth c ∉
      Event.logInfoProcessing k total :: fetchEvents w p ++ [Event.logFailedPrompt k]) := by
  refine ⟨?_, ?_, ?_⟩
  · simp only [processPrompts, fetchEvents, fetch_openai_response, hb, handleResult]
    simp
  · unfold main_single
    rw [hne]
    simp only [fetchEvents, fetch_openai_response, hs, Bool.false_eq_true, if_false]
    simp
  · intro pth c hmem
    simp only [fetchEvents, fetch_openai_response, hb] at hmem
    simp at hmem

def w10 : World :=
  ⟨fun _ => none, fun _ => some [], false, fun _ => false⟩

/-- Witness for C10 at a world whose API returns the empty string. -/
theorem C10_empty_response_witness :
    main_single w10 ['x'] = fetchEvents w10 (PyVal.str ['x']) ++ [Event.logFetchFailed] :=
  (C10_empty_response w10 (PyVal.str ['p']) [] 1 1 ['x'] rfl rfl rfl).2.1
